import Mathlib

/-!
Verification of the Andon board front-end (src/src/App.jsx).

The component keeps a list `reports` in React state and mutates it through a
small number of handlers; rendering is a pure projection of that state over the
static `productionAreas` catalog.  Each handler below is a direct shallow
embedding of the corresponding JavaScript function: JS objects become
structures, `_id` becomes `id`, the JSX field `section` is written `sect`
(a reserved word in Lean), timestamps are epoch milliseconds (`Option Int`,
`none` for JS `null`), and status strings are kept verbatim
("red" / "yellow" / "green").
-/

namespace Andon

/-- A report object as delivered by the backend and stored in the `reports`
React state: `_id`, `loop`, `section`, `status`, `assigned`, `remark`,
`timestamp`. -/
structure Report where
  id : String
  loop : String
  sect : String
  status : String
  assigned : String
  remark : String
  timestamp : Option Int
deriving DecidableEq

/-- The static station catalog `productionAreas` from App.jsx lines 9-16,
in declaration order. -/
def productionAreas : List (String × List String) :=
  [ ("Loop 1", ["A&T", "TMA", "SUBA/CONA"]),
    ("Loop 2", ["BSA SOFT", "BSA HARD", "EDM LASER", "FIT/NULL"]),
    ("Loop 3", ["SBC MACH", "SBC DEBUR"]),
    ("Loop 4", ["SB", "GMC"]),
    ("Quality", ["RI", "ZEISS"]),
    ("Planning", ["STOCKROOM", "SHIPPING"]) ]

/-- `timeAgo` (App.jsx lines 19-29).  Both dates are reduced to epoch
milliseconds (the `toLocaleString` round-trip shifts both endpoints by the
same timezone offset, so the difference is unchanged); `Math.floor` of a
real division by a positive integer is floor division `Int.fdiv`.
`if (!timestamp) return ""` is the `none` branch. -/
def timeAgo (now : Int) (timestamp : Option Int) : String :=
  match timestamp with
  | none => ""
  | some reportTime =>
    let diffInSeconds : Int := Int.fdiv (now - reportTime) 1000
    if diffInSeconds < 60 then toString diffInSeconds ++ "s ago"
    else if diffInSeconds < 3600 then toString (Int.fdiv diffInSeconds 60) ++ "m ago"
    else if diffInSeconds < 86400 then toString (Int.fdiv diffInSeconds 3600) ++ "hr ago"
    else toString (Int.fdiv diffInSeconds 86400) ++ "d ago"

/-- The `socket.on("newReport")` handler (App.jsx lines 53-60): map over the
previous list replacing any entry with the same `_id`, then append the new
report only when no entry with that `_id` was present. -/
def upsertNewReport (prev : List Report) (newReport : Report) : List Report :=
  let updatedReports := prev.map fun r => if r.id == newReport.id then newReport else r
  if updatedReports.any fun r => r.id == newReport.id then updatedReports
  else updatedReports ++ [newReport]

/-- The `socket.on("resolveReport")` handler (App.jsx lines 62-66): map over
the list setting `status: "green", remark: "", timestamp: null` on the entry
whose `_id` matches, spreading the rest of its fields unchanged. -/
def resolveReportEvent (prev : List Report) (id : String) : List Report :=
  prev.map fun r =>
    if r.id == id then { r with status := "green", remark := "", timestamp := none } else r

/-- The acknowledgment handler of `sendReport` (App.jsx line 82):
`[...prev.filter((r) => r._id !== data._id), data]`. -/
def submitAck (prev : List Report) (data : Report) : List Report :=
  prev.filter (fun r => !(r.id == data.id)) ++ [data]

/-- Outcome of the startup `axios.get(backendURL + "/reports")` call. -/
inductive FetchResult where
  | ok (data : List Report)
  | err
deriving DecidableEq

/-- Effect of the snapshot fetch on the `reports` state (App.jsx line 51).
On success the `.then` handler replaces the state with the payload.  The call
chain has no `.catch` and the component has no error state, so on a network
failure nothing runs and the state is left as it was. -/
def applySnapshot : FetchResult → List Report → List Report
  | FetchResult.ok data, _ => data
  | FetchResult.err, prev => prev

/-- An upsert-shaped store event: a `newReport` push, or the acknowledgment
of this client's own `POST /report`. -/
inductive UpsertEvent where
  | push (r : Report)
  | ack (r : Report)
deriving DecidableEq

def applyUpsert (prev : List Report) : UpsertEvent → List Report
  | UpsertEvent.push r => upsertNewReport prev r
  | UpsertEvent.ack r => submitAck prev r

def applyUpserts (prev : List Report) (evs : List UpsertEvent) : List Report :=
  evs.foldl applyUpsert prev

/-- The ids of the entries currently in the store. -/
def storeIds (l : List Report) : List String := l.map fun r => r.id

/-- The (loop, section) keys of the entries currently in the store. -/
def storeKeys (l : List Report) : List (String × String) := l.map fun r => (r.loop, r.sect)

/-- Resolve-confirmation UI state: `showModal` and `selectedReportId`
(App.jsx lines 39-40), both initially cleared. -/
structure FlowState where
  showModal : Bool
  selectedReportId : Option String
deriving DecidableEq

/-- Full component state relevant to the resolve flow: the report store plus
the modal state. -/
structure AppState where
  reports : List Report
  flow : FlowState
deriving DecidableEq

/-- An outbound network request issued by a handler. -/
inductive NetCall where
  | postResolve (id : String)
deriving DecidableEq

/-- Outcome of the `axios.post(backendURL + "/resolve/" + id)` call. -/
inductive ResolveOutcome where
  | success
  | failure
deriving DecidableEq

/-- `confirmResolve(id)` (App.jsx lines 88-91): stage the id and open the
modal.  (This is the spec's `requestResolve`.) -/
def confirmResolve (id : String) (s : FlowState) : FlowState :=
  { s with selectedReportId := some id, showModal := true }

/-- `resolveReport()` (App.jsx lines 94-103), the modal's Yes button — the
spec's `confirmResolve`.  With no staged id it returns immediately.  Otherwise
it posts `/resolve/{id}`; on success it closes the modal and clears the staged
id; on failure the `catch` only logs, so the state is unchanged (modal still
open, id still staged). -/
def resolveReportClick (outcome : ResolveOutcome) (s : FlowState) : FlowState × List NetCall :=
  match s.selectedReportId with
  | none => (s, [])
  | some id =>
    match outcome with
    | ResolveOutcome.success => (⟨false, none⟩, [NetCall.postResolve id])
    | ResolveOutcome.failure => (s, [NetCall.postResolve id])

/-- The modal's Cancel button (App.jsx line 186): `setShowModal(false)` only —
no network call, no store change, and `selectedReportId` is not touched. -/
def cancelClick (s : AppState) : AppState × List NetCall :=
  ({ s with flow := { s.flow with showModal := false } }, [])

/-- One rendered station cell of the dashboard (App.jsx lines 154-177):
its catalog position, the CSS status class, the remark paragraph when shown,
and the elapsed-time paragraph when shown. -/
structure DisplayCell where
  loop : String
  sect : String
  status : String
  remark : Option String
  ageLabel : Option String
deriving DecidableEq

/-- The cell rendered for one catalog station (App.jsx lines 160-173):
`reports.find(r => r.loop === loop && r.section === section)`; absent →
class "green" with nothing inside; present → class `report.status`, the
remark shown only when the status is not "green" and the remark is truthy
(non-empty), the age label only when the status is not "green" and the
timestamp is truthy (non-null). -/
def projectCell (now : Int) (reports : List Report) (loop sect : String) : DisplayCell :=
  match reports.find? (fun r => r.loop == loop && r.sect == sect) with
  | none => ⟨loop, sect, "green", none, none⟩
  | some report =>
    ⟨loop, sect, report.status,
      if report.status != "green" && report.remark != "" then some report.remark else none,
      if report.status != "green" then report.timestamp.map (fun ts => timeAgo now (some ts))
      else none⟩

/-- The dashboard render (App.jsx lines 154-177): one cell per catalog
station, groups in catalog declaration order, stations within a group in
declaration order. -/
def project (now : Int) (catalog : List (String × List String)) (reports : List Report) :
    List DisplayCell :=
  catalog.flatMap fun p => p.2.map fun s => projectCell now reports p.1 s

/-- The flattened (group, station) keys of a catalog, in declaration order. -/
def catalogKeys (catalog : List (String × List String)) : List (String × String) :=
  catalog.flatMap fun p => p.2.map fun s => (p.1, s)

/-- Sample report: a red report for (Loop 1, A&T). -/
def rRed : Report := ⟨"r1", "Loop 1", "A&T", "red", "John Doe", "fixture jam", some 1000⟩

/-- Sample report: a yellow report for (Loop 2, FIT/NULL). -/
def rYellow : Report := ⟨"r2", "Loop 2", "FIT/NULL", "yellow", "John Doe", "jam", some 2000⟩

/-- Sample report: a second report for (Loop 1, A&T) with a different id. -/
def rDup : Report := ⟨"r3", "Loop 1", "A&T", "yellow", "John Doe", "again", some 3000⟩

/-! ### Helper lemmas about the newReport replacement map -/

theorem upsertMap_fixed (nr : Report) (l : List Report) :
    ((l.map fun r => if r.id == nr.id then nr else r).map
        fun r => if r.id == nr.id then nr else r)
      = l.map fun r => if r.id == nr.id then nr else r := by
  rw [List.map_map]
  apply List.map_congr_left
  intro r _
  by_cases h : r.id = nr.id <;> simp [Function.comp, h]

theorem upsertMap_any (nr : Report) (l : List Report) :
    ((l.map fun r => if r.id == nr.id then nr else r).any fun r => r.id == nr.id)
      = l.any fun r => r.id == nr.id := by
  rw [List.any_map]
  congr 1
  funext r
  by_cases h : r.id = nr.id <;> simp [Function.comp, h]

/-- C5: applying the same `newReport` push event twice yields the same store
state as applying it once. -/
theorem upsertNewReport_idempotent (prev : List Report) (nr : Report) :
    upsertNewReport (upsertNewReport prev nr) nr = upsertNewReport prev nr := by
  unfold upsertNewReport
  by_cases h : ((prev.map fun r => if r.id == nr.id then nr else r).any
      fun r => r.id == nr.id) = true
  · simp only [h, if_true, upsertMap_fixed, upsertMap_any]
  · simp only [h, if_false, Bool.not_eq_true] at *
    simp only [h, Bool.false_eq_true, if_false]
    rw [List.map_append, upsertMap_fixed, List.any_append]
    simp [upsertMap_any nr prev, h]

/-- C6: resolving an id that is present sets that entry's status to "green",
its remark to "", and its timestamp to null in place, preserving the entry's
other fields (id, loop, section, assigned), keeping it in the store, and
leaving every entry with a different id unchanged. -/
theorem resolveReportEvent_present (prev : List Report) (id : String) (i : Nat)
    (hi : i < prev.length) (hi2 : i < (resolveReportEvent prev id).length)
    (hid : prev[i].id = id) :
    (resolveReportEvent prev id).length = prev.length ∧
    (resolveReportEvent prev id)[i] =
      { prev[i] with status := "green", remark := "", timestamp := none } ∧
    ∀ j (hj : j < prev.length) (hj2 : j < (resolveReportEvent prev id).length),
      prev[j].id ≠ id → (resolveReportEvent prev id)[j] = prev[j] := by
  refine ⟨by simp [resolveReportEvent], ?_, ?_⟩
  · simp [resolveReportEvent, hid]
  · intro j hj hj2 hne
    simp [resolveReportEvent, hne]

/-- Witness for C6 at a concrete two-entry store. -/
theorem resolveReportEvent_present_witness :
    (resolveReportEvent [rRed, rYellow] "r1").length = 2 ∧
    (resolveReportEvent [rRed, rYellow] "r1")[0] =
      { rRed with status := "green", remark := "", timestamp := none } ∧
    (resolveReportEvent [rRed, rYellow] "r1")[1] = rYellow := by
  have h := resolveReportEvent_present [rRed, rYellow] "r1" 0 (by decide)
    (by simp [resolveReportEvent]) (by decide)
  exact ⟨h.1, h.2.1, h.2.2 1 (by decide) (by simp [resolveReportEvent]) (by decide)⟩

/-- C7: resolving an id that matches no entry leaves the store exactly
unchanged — no new entry is created. -/
theorem resolveReportEvent_absent (prev : List Report) (id : String)
    (h : ∀ r ∈ prev, r.id ≠ id) : resolveReportEvent prev id = prev := by
  unfold resolveReportEvent
  have : prev.map (fun r =>
      if r.id == id then { r with status := "green", remark := "", timestamp := none } else r)
      = prev.map fun r => r := by
    apply List.map_congr_left
    intro r hr
    simp [h r hr]
  rw [this, List.map_id']

/-- Witness for C7 at a concrete store and an unknown id. -/
theorem resolveReportEvent_absent_witness :
    resolveReportEvent [rRed, rYellow] "nope" = [rRed, rYellow] :=
  resolveReportEvent_absent [rRed, rYellow] "nope" (by decide)

theorem upsertMap_ids (nr : Report) (l : List Report) :
    storeIds (l.map fun r => if r.id == nr.id then nr else r) = storeIds l := by
  unfold storeIds
  rw [List.map_map]
  apply List.map_congr_left
  intro r _
  by_cases h : r.id = nr.id <;> simp [Function.comp, h]

theorem upsertNewReport_ids_nodup (prev : List Report) (nr : Report)
    (h : (storeIds prev).Nodup) : (storeIds (upsertNewReport prev nr)).Nodup := by
  unfold upsertNewReport
  by_cases hc : ((prev.map fun r => if r.id == nr.id then nr else r).any
      fun r => r.id == nr.id) = true
  · simpa only [hc, if_true, upsertMap_ids] using h
  · simp only [hc, Bool.false_eq_true, if_false]
    rw [show storeIds ((prev.map fun r => if r.id == nr.id then nr else r) ++ [nr])
        = storeIds (prev.map fun r => if r.id == nr.id then nr else r) ++ [nr.id] by
      simp [storeIds]]
    rw [upsertMap_ids]
    rw [upsertMap_any] at hc
    refine List.nodup_append.mpr ⟨h, by simp, ?_⟩
    intro a ha hb
    simp only [List.mem_singleton] at hb
    subst hb
    simp only [storeIds, List.mem_map] at ha
    obtain ⟨r, hr, hrid⟩ := ha
    simp only [List.any_eq_true, not_exists, not_and, Bool.not_eq_true] at hc
    have := hc r hr
    simp [hrid] at this

theorem submitAck_ids_nodup (prev : List Report) (d : Report)
    (h : (storeIds prev).Nodup) : (storeIds (submitAck prev d)).Nodup := by
  unfold submitAck storeIds
  rw [List.map_append]
  refine List.nodup_append.mpr ⟨?_, by simp, ?_⟩
  · exact ((List.filter_sublist prev).map fun r => r.id).nodup (by simpa [storeIds] using h)
  · intro a ha hb
    simp only [List.map_cons, List.map_nil, List.mem_singleton] at hb
    subst hb
    simp only [List.mem_map, List.mem_filter] at ha
    obtain ⟨r, ⟨_, hq⟩, hrid⟩ := ha
    simp only [Bool.not_eq_eq_eq_not, Bool.not_true, beq_eq_false_iff_ne] at hq
    exact hq (by simpa using hrid.symm ▸ rfl)

/-- C1 counterexample: starting from an empty snapshot, pushing a report for
(Loop 1, A&T) and then a second report for the same station with a different
id appends the second one instead of replacing the first — the store then
holds two entries with the same (loop, section) key. -/
theorem dedup_by_key_fails :
    applyUpserts (applySnapshot (FetchResult.ok []) [])
        [UpsertEvent.push rRed, UpsertEvent.push rDup] = [rRed, rDup] ∧
    rRed.loop = rDup.loop ∧ rRed.sect = rDup.sect ∧ rRed.id ≠ rDup.id ∧
    ¬ (storeKeys [rRed, rDup]).Nodup := by
  decide

/-- C1 amended: after a loadSnapshot whose entries have pairwise-distinct ids
followed by any sequence of upsert events (newReport pushes or submit
acknowledgments), the store never contains two entries with the same id; a
matching-key incoming report with a different id is appended, so duplicate
keys are possible (see the counterexample). -/
theorem applyUpserts_ids_nodup (snapshot : List Report) (evs : List UpsertEvent)
    (h : (storeIds snapshot).Nodup) :
    (storeIds (applyUpserts (applySnapshot (FetchResult.ok snapshot) []) evs)).Nodup := by
  show (storeIds (applyUpserts snapshot evs)).Nodup
  induction evs generalizing snapshot with
  | nil => exact h
  | cons e tl ih =>
    show (storeIds (applyUpserts (applyUpsert snapshot e) tl)).Nodup
    cases e with
    | push r => exact ih _ (upsertNewReport_ids_nodup _ _ h)
    | ack r => exact ih _ (submitAck_ids_nodup _ _ h)

/-- Witness for the amended C1 theorem at a concrete snapshot and event
sequence. -/
theorem applyUpserts_ids_nodup_witness :
    (storeIds (applyUpserts (applySnapshot (FetchResult.ok [rRed]) [])
        [UpsertEvent.push rDup, UpsertEvent.ack rYellow])).Nodup :=
  applyUpserts_ids_nodup [rRed] [UpsertEvent.push rDup, UpsertEvent.ack rYellow] (by decide)

/-- C2 counterexample: when the snapshot fetch fails, the reports state is
left as the initial empty list (the fetch chain has no rejection handler) and
every catalog station renders as a GREEN cell with no remark and no age
label — the board silently shows all-GREEN with no failure indication. -/
theorem snapshot_failure_all_green :
    applySnapshot FetchResult.err [] = [] ∧
    (project 0 productionAreas (applySnapshot FetchResult.err [])).all
      (fun c => c.status == "green" && c.remark.isNone && c.ageLabel.isNone) = true := by
  decide

/-- C2 amended: a failed snapshot fetch leaves the reports state unchanged
(at startup, empty), and projecting an empty store yields only GREEN cells
with no remark and no age label; no failure is surfaced anywhere in the
component state. -/
theorem snapshot_failure_state_unchanged (prev : List Report) (now : Int)
    (catalog : List (String × List String)) :
    applySnapshot FetchResult.err prev = prev ∧
    ∀ c ∈ project now catalog [],
      c.status = "green" ∧ c.remark = none ∧ c.ageLabel = none := by
  refine ⟨rfl, ?_⟩
  intro c hc
  unfold project at hc
  simp only [List.mem_flatMap, List.mem_map] at hc
  obtain ⟨p, _, s, _, rfl⟩ := hc
  simp [projectCell, List.find?]

/-- Witness for the amended C2 theorem. -/
theorem snapshot_failure_state_unchanged_witness :
    applySnapshot FetchResult.err [rRed] = [rRed] ∧
    (projectCell 0 [] "Loop 1" "A&T").status = "green" := by
  have h := snapshot_failure_state_unchanged [rRed] 0 productionAreas
  exact ⟨h.1, (h.2 (projectCell 0 [] "Loop 1" "A&T") (by decide)).1⟩

/-- C3 counterexample: from PendingConfirmation("r1") — modal open, id
staged — a failed confirmResolve leaves the flow in PendingConfirmation
(modal still open, id still staged), and cancelResolve leaves the staged id
set; neither returns to Idle (modal closed, no staged id). -/
theorem resolve_flow_failure_not_idle :
    (resolveReportClick ResolveOutcome.failure ⟨true, some "r1"⟩).1
      ≠ (⟨false, none⟩ : FlowState) ∧
    (cancelClick ⟨[], ⟨true, some "r1"⟩⟩).1.flow ≠ (⟨false, none⟩ : FlowState) := by
  decide

/-- C3 amended: the transitions the code implements: requestResolve stages
the id and opens the modal from any state; from PendingConfirmation(id),
confirmResolve success returns to Idle, confirmResolve failure stays in
PendingConfirmation(id), and cancelResolve closes the modal but keeps the
staged id; with no staged id, confirmResolve is a no-op with no network
call. -/
theorem resolve_flow_transitions (id : String) (m : Bool) (sid : Option String)
    (rs : List Report) :
    confirmResolve id ⟨m, sid⟩ = ⟨true, some id⟩ ∧
    resolveReportClick ResolveOutcome.success ⟨true, some id⟩
      = (⟨false, none⟩, [NetCall.postResolve id]) ∧
    resolveReportClick ResolveOutcome.failure ⟨true, some id⟩
      = (⟨true, some id⟩, [NetCall.postResolve id]) ∧
    (cancelClick ⟨rs, ⟨true, some id⟩⟩).1.flow = ⟨false, some id⟩ ∧
    (∀ o, resolveReportClick o ⟨m, none⟩ = (⟨m, none⟩, [])) := by
  refine ⟨rfl, rfl, rfl, rfl, fun o => ?_⟩
  cases o <;> rfl

/-- C4 counterexample: cancelResolve from a staged "r1" leaves the staged id
set to "r1" — it does not clear it. -/
theorem cancel_keeps_staged_id :
    (cancelClick ⟨[rRed], ⟨true, some "r1"⟩⟩).1.flow.selectedReportId ≠ none ∧
    (cancelClick ⟨[rRed], ⟨true, some "r1"⟩⟩).1.flow.selectedReportId = some "r1" := by
  decide

/-- C4 amended: cancelResolve makes no network call, leaves the report store
unchanged, and closes the modal, but the staged id is left as it was rather
than cleared. -/
theorem cancelClick_no_network (s : AppState) :
    (cancelClick s).1.reports = s.reports ∧
    (cancelClick s).2 = [] ∧
    (cancelClick s).1.flow.showModal = false ∧
    (cancelClick s).1.flow.selectedReportId = s.flow.selectedReportId :=
  ⟨rfl, rfl, rfl, rfl⟩

theorem projectCell_loop (now : Int) (reports : List Report) (loop sect : String) :
    (projectCell now reports loop sect).loop = loop := by
  unfold projectCell
  cases reports.find? (fun r => r.loop == loop && r.sect == sect) <;> rfl

theorem projectCell_sect (now : Int) (reports : List Report) (loop sect : String) :
    (projectCell now reports loop sect).sect = sect := by
  unfold projectCell
  cases reports.find? (fun r => r.loop == loop && r.sect == sect) <;> rfl

theorem projectCell_guards (now : Int) (reports : List Report) (loop sect : String) :
    ((projectCell now reports loop sect).remark ≠ none →
      (projectCell now reports loop sect).status ≠ "green" ∧
      (projectCell now reports loop sect).remark ≠ some "") ∧
    ((projectCell now reports loop sect).ageLabel ≠ none →
      (projectCell now reports loop sect).status ≠ "green") := by
  unfold projectCell
  cases hf : reports.find? (fun r => r.loop == loop && r.sect == sect) with
  | none => simp
  | some r =>
    by_cases h1 : r.status = "green"
    · simp [h1]
    · by_cases h2 : r.remark = "" <;> simp [h1, h2]

/-- C8: the dashboard renders exactly one cell per catalog station, groups and
stations in catalog declaration order, whatever the store contents and order;
a station with no store entry renders as a GREEN cell with no remark and no
age label; a remark is rendered only for a non-GREEN non-empty remark, and an
age label only for a non-GREEN status. -/
theorem project_catalog_shape (now : Int) (catalog : List (String × List String))
    (reports : List Report) :
    ((project now catalog reports).map fun c => (c.loop, c.sect)) = catalogKeys catalog ∧
    (∀ loop sect, (reports.find? fun r => r.loop == loop && r.sect == sect) = none →
      projectCell now reports loop sect = ⟨loop, sect, "green", none, none⟩) ∧
    ∀ c ∈ project now catalog reports,
      (c.remark ≠ none → c.status ≠ "green" ∧ c.remark ≠ some "") ∧
      (c.ageLabel ≠ none → c.status ≠ "green") := by
  refine ⟨?_, ?_, ?_⟩
  · unfold project catalogKeys
    induction catalog with
    | nil => rfl
    | cons p tl ih =>
      simp only [List.flatMap_cons, List.map_append, ih, List.map_map]
      congr 1
      apply List.map_congr_left
      intro s _
      simp [Function.comp, projectCell_loop, projectCell_sect]
  · intro loop sect h
    simp [projectCell, h]
  · intro c hc
    unfold project at hc
    simp only [List.mem_flatMap, List.mem_map] at hc
    obtain ⟨p, _, s, _, rfl⟩ := hc
    exact projectCell_guards now reports p.1 s

/-- Witness for C8: a concrete one-report store over the real catalog, and
the GREEN default for a station with no entry. -/
theorem project_catalog_shape_witness :
    ((project 0 productionAreas [rRed]).map fun c => (c.loop, c.sect))
        = catalogKeys productionAreas ∧
    projectCell 0 [rRed] "Loop 4" "SB" = ⟨"Loop 4", "SB", "green", none, none⟩ := by
  have h := project_catalog_shape 0 productionAreas [rRed]
  exact ⟨h.1, h.2.1 "Loop 4" "SB" (by decide)⟩

/-- C9: for an elapsed time of n whole seconds the label is the single
coarsest non-zero unit by floor division — seconds below one minute, minutes
below one hour, hours below one day, days otherwise — and in particular
45s, 130s, 7200s and 200000s render as "45s ago", "2m ago", "2hr ago" and
"2d ago". -/
theorem timeAgo_buckets :
    (∀ (reportedAt : Int) (n : Nat),
      timeAgo (reportedAt + 1000 * n) (some reportedAt) =
        (if n < 60 then toString n ++ "s ago"
         else if n < 3600 then toString (n / 60) ++ "m ago"
         else if n < 86400 then toString (n / 3600) ++ "hr ago"
         else toString (n / 86400) ++ "d ago")) ∧
    timeAgo 45000 (some 0) = "45s ago" ∧
    timeAgo 130000 (some 0) = "2m ago" ∧
    timeAgo 7200000 (some 0) = "2hr ago" ∧
    timeAgo 200000000 (some 0) = "2d ago" := by
  refine ⟨?_, by decide, by decide, by decide, by decide⟩
  intro ts n
  simp only [timeAgo]
  have hd : Int.fdiv (ts + 1000 * n - ts) 1000 = (n : Int) := by
    have h1 : ts + 1000 * (n : Int) - ts = 1000 * n := by ring
    rw [h1, Int.fdiv_eq_ediv _ (by norm_num)]
    omega
  rw [hd]
  by_cases h60 : n < 60
  · rw [if_pos (by exact_mod_cast h60), if_pos h60]
    rfl
  · rw [if_neg (by exact_mod_cast h60), if_neg h60]
    by_cases h3600 : n < 3600
    · rw [if_pos (by exact_mod_cast h3600), if_pos h3600,
        show Int.fdiv (n : Int) 60 = ((n / 60 : Nat) : Int) by
          rw [Int.fdiv_eq_ediv _ (by norm_num)]; omega]
      rfl
    · rw [if_neg (by exact_mod_cast h3600), if_neg h3600]
      by_cases h86400 : n < 86400
      · rw [if_pos (by exact_mod_cast h86400), if_pos h86400,
          show Int.fdiv (n : Int) 3600 = ((n / 3600 : Nat) : Int) by
            rw [Int.fdiv_eq_ediv _ (by norm_num)]; omega]
        rfl
      · rw [if_neg (by exact_mod_cast h86400), if_neg h86400,
          show Int.fdiv (n : Int) 86400 = ((n / 86400 : Nat) : Int) by
            rw [Int.fdiv_eq_ediv _ (by norm_num)]; omega]
        rfl

theorem find?_append_first {α} (p : α → Bool) (pre post : List α) (a : α)
    (hpre : ∀ x ∈ pre, p x = false) (ha : p a = true) :
    (pre ++ a :: post).find? p = some a := by
  induction pre with
  | nil => simp [List.find?_cons_of_pos _ ha]
  | cons b tl ih =>
    rw [List.cons_append,
      List.find?_cons_of_neg _ (by simp [hpre b (List.mem_cons_self b tl)])]
    exact ih fun x hx => hpre x (List.mem_cons_of_mem _ hx)

/-- C10: when several store entries carry the same (loop, section) key, the
rendered cell for that station is determined by the first matching entry in
store order; all later duplicates are ignored. -/
theorem projectCell_first_match (now : Int) (loop sect : String)
    (pre post : List Report) (r : Report)
    (hpre : ∀ x ∈ pre, (x.loop == loop && x.sect == sect) = false)
    (hr : (r.loop == loop && r.sect == sect) = true) :
    projectCell now (pre ++ r :: post) loop sect = projectCell now [r] loop sect := by
  unfold projectCell
  have h2 : List.find? (fun x => x.loop == loop && x.sect == sect) [r] = some r :=
    List.find?_cons_of_pos [] hr
  rw [find?_append_first _ pre post r hpre hr, h2]

/-- Witness for C10: with two entries for (Loop 1, A&T), the cell comes from
the first one and the later duplicate is ignored. -/
theorem projectCell_first_match_witness :
    projectCell 0 [rYellow, rRed, rDup] "Loop 1" "A&T"
      = projectCell 0 [rRed] "Loop 1" "A&T" :=
  projectCell_first_match 0 "Loop 1" "A&T" [rYellow] [rDup] rRed (by decide) (by decide)

end Andon
